import Mathlib

/-!
Verification of the ffmpeg-api job dispatch pipeline (medram/ffmpeg-api).

Shallow embedding of:
- `api/ffmpeg_executor.py` (`FFmpegExecutor.execute`): placeholder templating
  (the regex scan of the pattern "two opening braces, optional whitespace,
  a run of non-closing-brace characters, optional whitespace, two closing
  braces"), `shlex.quote`, the legacy output-path append, the `ffmpeg`
  invocation-token check, and the subprocess result handling;
- `api/task_worker.py` (`TaskWorker.process_task`,
  `handle_default_ffmpeg_task`, `handle_merge_audio_video`);
- `api/file_manager.py` (`FileManager.download_files` / `upload_to_s3` /
  `cleanup`, modelled through an environment of effects);
- `api/task_queue.py` (`TaskQueue.publish`);
- `api/ffmpeg_router.py` (`register_task`).

External effects (HTTP download, the subprocess runtime, S3 upload,
`os.path.abspath`, removal of the temporary directory, event subscribers,
floating-point formatting) are parameters of an `Env` record; the control
flow that consumes their results is translated from the Python source.
Runs additionally produce a `Log` recording every assignment to
`task.status`, every `cleanup()` call, every spawned shell command and
every published event, so that the lifecycle claims can be stated.
-/

namespace FfmpegApi

/-- The apostrophe character, written via its code point. -/
def sqc : Char := Char.ofNat 39

/-- The double-quote character, written via its code point. -/
def dqc : Char := Char.ofNat 34

/-- Opening curly brace. -/
def lbr : Char := '\x7b'

/-- Closing curly brace. -/
def rbr : Char := '\x7d'

/-- Python `\s` on ASCII text: space, tab, newline, carriage return,
vertical tab, form feed (the regexes and `str.strip` in the source are
only applied to ASCII command text). -/
def pyIsSpace (c : Char) : Bool :=
  c = ' ' || c = '\t' || c = '\n' || c = '\r' || c = '\x0b' || c = '\x0c'

/-- Characters `shlex.quote` considers safe (its ASCII unsafe-finder regex
finds nothing): ASCII alphanumeric, underscore, or one of
`@ % + = : , .` or slash or dash. -/
def shlexSafe (c : Char) : Bool :=
  (('a' ≤ c && c ≤ 'z') || ('A' ≤ c && c ≤ 'Z') || ('0' ≤ c && c ≤ '9')
    || c = '_' || c = '@' || c = '%' || c = '+' || c = '='
    || c = ':' || c = ',' || c = '.' || c = '/' || c = '-')

/-- `s.replace("'", "'\"'\"'")` from `shlex.quote`: every apostrophe becomes
the five-character sequence apostrophe, double quote, apostrophe, double
quote, apostrophe. -/
def escQuote : List Char → List Char
  | [] => []
  | c :: t => if c = sqc then sqc :: dqc :: sqc :: dqc :: sqc :: escQuote t
              else c :: escQuote t

/-- `shlex.quote(s)`: empty string becomes two apostrophes; a string of only
safe characters is returned unchanged; otherwise the escaped string is
wrapped in apostrophes. -/
def shlexQuote (s : String) : String :=
  if s.data = [] then String.mk [sqc, sqc]
  else if s.data.all shlexSafe then s
  else String.mk (sqc :: escQuote s.data ++ [sqc])

/-- Python substring membership `needle in hay` over character lists. -/
def listSub (needle : List Char) : List Char → Bool
  | [] => needle.isEmpty
  | c :: t => needle.isPrefixOf (c :: t) || listSub needle t

/-- The two-character needle of the check `"{{" not in command_args`. -/
def braceBrace : List Char := [lbr, lbr]

/-- The needle of the check `"output" not in command_str`. -/
def outputChars : List Char := ['o', 'u', 't', 'p', 'u', 't']

/-- The characters of the fixed tool invocation token `ffmpeg`. -/
def ffmpegChars : List Char := ['f', 'f', 'm', 'p', 'e', 'g']

/-- Python `str.strip()`: drop whitespace from both ends. -/
def pyStrip (s : String) : String :=
  String.mk (((s.data.dropWhile pyIsSpace).reverse.dropWhile pyIsSpace).reverse)

/-- `os.path.join(a, b)` for the uses in this code base: `b` absolute replaces
`a`; otherwise the separator is inserted unless already present.
(The general `os.path.join` handles drive letters and multiple parts; the
source only joins a temp-directory path with a plain filename.) -/
def osJoin (a b : String) : String :=
  if b.startsWith "/" then b
  else if a = "" ∨ a.endsWith "/" then a ++ b
  else a ++ "/" ++ b

/-- First-match lookup in an insertion-ordered association list, the model of
`dict.get` (dict keys are unique, so first match is the match). -/
def alookup (l : List (String × String)) (k : String) : Option String :=
  (l.find? (fun p => p.1 = k)).map (fun p => p.2)

/-- `re.fullmatch(r"in_(\d+)", key)`: the key is `in_` followed by one or more
ASCII digits; returns the parsed number. -/
def inNIndex (key : String) : Option Nat :=
  match key.data with
  | 'i' :: 'n' :: '_' :: ds =>
    if ds ≠ [] ∧ ds.all Char.isDigit then
      some (ds.foldl (fun a c => a * 10 + (c.toNat - 48)) 0)
    else none
  | _ => none

/-- The ASCII digit character of a value below ten. -/
def digitChar (n : Nat) : Char := Char.ofNat (48 + n)

/-- Decimal digits of a natural number, most significant first (the fuel is
an upper bound on the number of digits; `n + 1` always suffices). -/
def natDigitsAux : Nat → Nat → List Char
  | 0, _ => []
  | fuel + 1, n =>
    if n < 10 then [digitChar n]
    else natDigitsAux fuel (n / 10) ++ [digitChar (n % 10)]

/-- Decimal rendering of a natural number (Python `str(i)` for `i ≥ 0`). -/
def natToStr (n : Nat) : String := String.mk (natDigitsAux (n + 1) n)

/-- Python `f"{i:03d}"`: decimal digits left-padded with zeros to width 3. -/
def pad3 (i : Nat) : String :=
  let s := natToStr i
  String.mk (List.replicate (3 - s.length) '0') ++ s

/-- `str.split(sep)` for a one-character separator, over character lists
(splitting an empty list yields one empty part, like Python). -/
def splitOnChar (sep : Char) : List Char → List (List Char)
  | [] => [[]]
  | c :: t =>
    let r := splitOnChar sep t
    if c = sep then [] :: r
    else
      match r with
      | [] => [[c]]
      | h :: t2 => (c :: h) :: t2

/-- Whether Python `float(s)` succeeds: after stripping whitespace, an
optional sign followed by `inf`, `infinity`, `nan` (case-insensitive), or a
decimal mantissa (digits, optionally with a decimal point, at least one digit
overall) with an optional exponent. Underscore digit grouping is not
modelled (never exercised here: the probed string is empty or a plain
decimal). -/
def pyFloatOk (s : String) : Bool :=
  let l := (pyStrip s).data.map Char.toLower
  let l := match l with
    | '+' :: t => t
    | '-' :: t => t
    | t => t
  let special := decide (l = ['i','n','f']) || decide (l = ['i','n','f','i','n','i','t','y'])
    || decide (l = ['n','a','n'])
  let mantissaExp :=
    let parts := splitOnChar 'e' l
    let mantOk := fun (m : List Char) =>
      let ps := splitOnChar '.' m
      match ps with
      | [a] => !a.isEmpty && a.all Char.isDigit
      | [a, b] => !(a ++ b).isEmpty && (a ++ b).all Char.isDigit
      | _ => false
    match parts with
    | [m] => mantOk m
    | [m, e] =>
      let ed := match e with
        | '+' :: t => t
        | '-' :: t => t
        | t => t
      mantOk m && !ed.isEmpty && ed.all Char.isDigit
    | _ => false
  special || mantissaExp

/-- Result of a completed subprocess: return code and the decoded standard
output and standard error streams. -/
structure SpawnOut where
  rc : Int
  out : String
  err : String
deriving DecidableEq, Repr

/-- Lifecycle events published on the task queue (`TaskEvent`). -/
inductive TaskEvent
  | task_started
  | task_completed
  | task_failed
deriving DecidableEq, Repr

/-- `TaskStatus` from `api/models.py`. -/
inductive TaskStatus
  | pending
  | running
  | completed
  | failed
deriving DecidableEq, Repr

/-- The in-memory `Task` record from `api/models.py`: producer-committed
fields plus worker-owned `status` / `output_urls` / `error_message`.
Ordered maps are insertion-ordered association lists. -/
structure Task where
  task_id : String
  command : String
  input_files : List (String × String)
  output_files : List (String × String)
  status : TaskStatus
  output_urls : Option (List (String × String))
  error_message : Option String
deriving DecidableEq, Repr

/-- The environment of external effects consumed by the pipeline.
`fetch url = some msg` means the HTTP download raised with message `msg`;
`run cmd` is the subprocess shell (error = spawn failure); `upload` is
`FileManager.upload_to_s3`; `cleanupResult` is whether `shutil.rmtree`
raises; `publishEvent` is the outcome of `task_queue.publish` for an event
(error = a subscriber raised); `fileExists` is `os.path.exists`;
`floatRepr` is the decimal rendering of the parsed float inserted into the
merge command's f-string. -/
structure Env where
  ffmpegInstalled : Bool
  abspath : String → String
  run : String → Except String SpawnOut
  fetch : String → Option String
  tempDir : String
  upload : String → String → Except String String
  cleanupResult : Except String Unit
  publishEvent : TaskEvent → Except String Unit
  fileExists : String → Bool
  floatRepr : String → String

/-- `replace_placeholder` from `FFmpegExecutor.execute`: the resolution of one
matched placeholder, given the whole matched text and the captured group.
Checks, in source order: the three output aliases (against the `output_path`
argument only), the `output_files` mapping (only when non-empty), the
positional `in_N` pattern (1-based, out of range leaves the text), the
direct input key (substituting the absolute path), otherwise unchanged. -/
def replacePlaceholder (env : Env) (input_files : List (String × String))
    (output_path : Option String) (output_files : Option (List (String × String)))
    (whole key : String) : String :=
  if key = "output_filename" ∨ key = "output" ∨ key = "output_path" then
    match output_path with
    | some p => shlexQuote p
    | none => whole
  else
    match (match output_files with
           | some ofs => if ofs.isEmpty then none else alookup ofs key
           | none => none) with
    | some path => shlexQuote path
    | none =>
      match inNIndex key with
      | some n =>
        let ordered := input_files.map (fun p => env.abspath p.2)
        if 1 ≤ n ∧ n ≤ ordered.length then shlexQuote (ordered.getD (n - 1) "")
        else whole
      | none =>
        match alookup input_files key with
        | some path => shlexQuote (env.abspath path)
        | none => whole

/-- The scan of `re.compile` applied to the placeholder pattern and `.sub`:
left to right, at each position try to match two opening braces, a maximal
greedy run of non-closing-brace characters (at least one, with the leading
whitespace absorbed by the greedy whitespace group, which backtracks by one
character when the run is all whitespace), then two closing braces; on a
match, emit the replacement and continue after it; otherwise emit one
character and move on. The fuel argument is an upper bound on the number of
steps; each step consumes at least one character, so fuel = length + 1 never
runs out. -/
def subScanF (repl : String → String → String) : Nat → List Char → List Char
  | 0, l => l
  | _ + 1, [] => []
  | fuel + 1, c :: rest =>
    if c = lbr ∧ rest.head? = some lbr then
      let rest1 := rest.tail
      let run := rest1.takeWhile (fun d => d ≠ rbr)
      let rest2 := rest1.drop run.length
      if run ≠ [] ∧ rest2.take 2 = [rbr, rbr] then
        let ws := run.takeWhile pyIsSpace
        let key := run.drop (min ws.length (run.length - 1))
        (repl (String.mk (lbr :: lbr :: (run ++ [rbr, rbr]))) (String.mk key)).data
          ++ subScanF repl fuel (rest2.drop 2)
      else c :: subScanF repl fuel rest
    else c :: subScanF repl fuel rest

/-- The command-rendering portion of `FFmpegExecutor.execute` (lines 44-95):
placeholder substitution, the legacy append of `output_path` (only when
`output_files` is falsy, the original arguments contain no placeholder
opener, the substituted string does not contain the substring `output`, and
`output_path` is truthy), `strip()`, and prefixing the `ffmpeg` token. -/
def renderCommand (env : Env) (command_args : String) (input_files : List (String × String))
    (output_path : Option String) (output_files : Option (List (String × String))) : String :=
  let command_str := String.mk (subScanF
    (replacePlaceholder env input_files output_path output_files)
    (command_args.data.length + 1) command_args.data)
  let command_str :=
    if output_files.getD [] = [] ∧ listSub braceBrace command_args.data = false
        ∧ listSub outputChars command_str.data = false ∧ output_path.getD "" ≠ "" then
      command_str ++ " " ++ shlexQuote (output_path.getD "")
    else command_str
  let full := pyStrip command_str
  if ffmpegChars.isPrefixOf full.data then full else "ffmpeg " ++ full

/-- `FFmpegExecutor.execute`: check the tool is installed (else fail with the
missing-dependency diagnostic without spawning), render the command, spawn
it; nonzero exit yields the error stream if non-empty else the output
stream; a spawn exception is returned as a failure result. Also returns the
list of spawned commands (empty when the tool check fails). -/
def execute (env : Env) (command_args : String) (input_files : List (String × String))
    (output_path : Option String) (output_files : Option (List (String × String))) :
    (Bool × Option String) × List String :=
  if !env.ffmpegInstalled then
    ((false, some "FFmpeg is not installed on the system"), [])
  else
    let full := renderCommand env command_args input_files output_path output_files
    match env.run full with
    | .error e => ((false, some ("Failed to execute FFmpeg: " ++ e)), [full])
    | .ok r =>
      if r.rc ≠ 0 then
        ((false, some ("FFmpeg error: " ++ (if r.err ≠ "" then r.err else r.out))), [full])
      else ((true, none), [full])

/-- Observable trace of one `process_task` run: every value assigned to
`task.status` in order, the number of `FileManager.cleanup()` calls, every
shell command handed to the subprocess layer, and every event published. -/
structure Log where
  statusHistory : List TaskStatus
  cleanups : Nat
  spawns : List String
  events : List TaskEvent
deriving DecidableEq, Repr

/-- Result of a worker step: the (mutated) task, the trace, and
`err = some msg` when an uncaught Python exception propagates out of the
step with message `msg`. -/
structure PRes where
  task : Task
  log : Log
  err : Option String
deriving Repr

/-- `FileManager.download_files`: fetch each input in insertion order into
the temp directory; the first raising download propagates as an exception
(inputs already fetched are kept on disk, nothing is cleaned up here). -/
def downloadFiles (env : Env) : List (String × String) → Except String (List (String × String))
  | [] => .ok []
  | (filename, url) :: rest =>
    match env.fetch url with
    | some e => .error e
    | none =>
      match downloadFiles env rest with
      | .error e => .error e
      | .ok l => .ok ((filename, osJoin env.tempDir filename) :: l)

/-- The upload loop of `handle_default_ffmpeg_task`: upload each output under
`ffmpeg-outputs/<task_id>/<filename>`; returns the output-key to URL entries
recorded so far plus the exception of the first failing upload (entries
before the failure stay recorded, mirroring the incremental dict update). -/
def uploadOutputs (env : Env) (task_id : String) (output_files : List (String × String)) :
    List (String × String) → List (String × String) × Option String
  | [] => ([], none)
  | (out_key, local_path) :: rest =>
    let filename := (alookup output_files out_key).getD out_key
    let s3_key := "ffmpeg-outputs/" ++ task_id ++ "/" ++ filename
    match env.upload local_path s3_key with
    | .error e => ([], some e)
    | .ok url =>
      let r := uploadOutputs env task_id output_files rest
      ((out_key, url) :: r.1, r.2)

/-- `TaskWorker.handle_default_ffmpeg_task`: download all inputs, compute
the output local paths, run the executor; on failure mark Failed, publish
`task_failed`, clean up; on success upload every output, mark Completed,
publish `task_completed`, clean up. A raising download, upload, publish or
cleanup propagates as an exception (`err`). -/
def handleDefault (env : Env) (t : Task) (log : Log) : PRes :=
  match downloadFiles env t.input_files with
  | .error e => ⟨t, log, some e⟩
  | .ok local_files =>
    let output_local_paths := t.output_files.map (fun p => (p.1, osJoin env.tempDir p.2))
    let er := execute env t.command local_files none (some output_local_paths)
    let log := { log with spawns := log.spawns ++ er.2 }
    if er.1.1 then
      let t := { t with output_urls := some [] }
      let up := uploadOutputs env t.task_id t.output_files output_local_paths
      let t := { t with output_urls := some up.1 }
      match up.2 with
      | some e => ⟨t, log, some e⟩
      | none =>
        let t := { t with status := TaskStatus.completed }
        let log := { log with statusHistory := log.statusHistory ++ [TaskStatus.completed],
                              events := log.events ++ [TaskEvent.task_completed] }
        match env.publishEvent TaskEvent.task_completed with
        | .error e => ⟨t, log, some e⟩
        | .ok _ =>
          let log := { log with cleanups := log.cleanups + 1 }
          match env.cleanupResult with
          | .error e => ⟨t, log, some e⟩
          | .ok _ => ⟨t, log, none⟩
    else
      let t := { t with status := TaskStatus.failed, error_message := er.1.2 }
      let log := { log with statusHistory := log.statusHistory ++ [TaskStatus.failed],
                            events := log.events ++ [TaskEvent.task_failed] }
      match env.publishEvent TaskEvent.task_failed with
      | .error e => ⟨t, log, some e⟩
      | .ok _ =>
        let log := { log with cleanups := log.cleanups + 1 }
        match env.cleanupResult with
        | .error e => ⟨t, log, some e⟩
        | .ok _ => ⟨t, log, none⟩

/-- The `track_<i, 3 digits>.mp3` filename of the i-th audio input of the
merge pipeline. -/
def trackName (i : Nat) : String := "track_" ++ pad3 i ++ ".mp3"

/-- The audio-collection loop of `handle_merge_audio_video`: look up
`audio_0`, `audio_1`, ... until a key is missing or its value is falsy,
downloading each into the temp directory. `fuel` bounds the iterations; the
caller passes one more than the number of input entries, which cannot be
exhausted because the looked-up keys are pairwise distinct. Returns the
local paths in order, or the first download exception. -/
def collectAudios (env : Env) (inputs : List (String × String)) :
    Nat → Nat → Except String (List String)
  | 0, _ => .ok []
  | fuel + 1, i =>
    match alookup inputs ("audio_" ++ natToStr i) with
    | none => .ok []
    | some url =>
      if url = "" then .ok []
      else
        match env.fetch url with
        | some e => .error e
        | none =>
          match collectAudios env inputs fuel (i + 1) with
          | .error e => .error e
          | .ok l => .ok (osJoin env.tempDir (trackName i) :: l)

/-- `TaskWorker.handle_merge_audio_video`: the hardcoded composite pipeline.
Downloads the `video` input and the numbered audio inputs, writes the concat
manifest, spawns the concat command (exit status ignored), spawns the probe
command and parses its stdout via `float()`, spawns the merge command; on
nonzero exit or missing output file cleans up and raises; otherwise uploads
under `youtube-merge/<task_id>/<filename>`, records `output_urls`, marks
Completed, publishes, and cleans up. Note no check that the tool is
installed is made before spawning. -/
def handleMerge (env : Env) (t : Task) (log : Log) : PRes :=
  let video_url := (alookup t.input_files "video").getD ""
  if video_url = "" then ⟨t, log, some "Missing video input for merge-audio-video task"⟩
  else
    match env.fetch video_url with
    | some e => ⟨t, log, some e⟩
    | none =>
      let video_local := osJoin env.tempDir "loop_video.mp4"
      match collectAudios env t.input_files (t.input_files.length + 1) 0 with
      | .error e => ⟨t, log, some e⟩
      | .ok audio_files =>
        if audio_files.isEmpty then
          ⟨t, log, some "No audio files provided for merge-audio-video task"⟩
        else
          let concat_list_path := osJoin env.tempDir "concat.txt"
          let merged_audio := osJoin env.tempDir "merged_audio.mp3"
          let concat_cmd := "ffmpeg -y -f concat -safe 0 -i " ++ concat_list_path
            ++ " -c copy " ++ merged_audio
          let log := { log with spawns := log.spawns ++ [concat_cmd] }
          match env.run concat_cmd with
          | .error e => ⟨t, log, some e⟩
          | .ok _ =>
            let probe_cmd :=
              "ffprobe -v error -show_entries format=duration -of default=noprint_wrappers=1:nokey=1 "
                ++ merged_audio
            let log := { log with spawns := log.spawns ++ [probe_cmd] }
            match env.run probe_cmd with
            | .error e => ⟨t, log, some e⟩
            | .ok probe =>
              let dstr := pyStrip probe.out
              if !pyFloatOk dstr then
                ⟨t, log, some ("could not convert string to float: "
                  ++ String.mk [sqc] ++ dstr ++ String.mk [sqc])⟩
              else
                let duration := env.floatRepr dstr
                let output_filename := match t.output_files with
                  | [] => "output.mp4"
                  | p :: _ => p.2
                let output_path := osJoin env.tempDir output_filename
                let merge_cmd := "ffmpeg -y -stream_loop -1 -i " ++ video_local
                  ++ " -i " ++ merged_audio
                  ++ " -map 0:v -map 1:a -shortest -c:v libx264 -preset fast -crf 18 -c:a aac -b:a 192k -t "
                  ++ duration ++ " " ++ output_path
                let log := { log with spawns := log.spawns ++ [merge_cmd] }
                match env.run merge_cmd with
                | .error e => ⟨t, log, some e⟩
                | .ok r =>
                  if r.rc ≠ 0 ∨ env.fileExists output_path = false then
                    let error_detail := if r.err ≠ "" then r.err else r.out
                    let log := { log with cleanups := log.cleanups + 1 }
                    match env.cleanupResult with
                    | .error e => ⟨t, log, some e⟩
                    | .ok _ =>
                      ⟨t, log, some ("FFmpeg failed to create output file: " ++ error_detail)⟩
                  else
                    let s3_key := "youtube-merge/" ++ t.task_id ++ "/" ++ output_filename
                    match env.upload output_path s3_key with
                    | .error e => ⟨t, log, some e⟩
                    | .ok url =>
                      let t := { t with output_urls := some [("video", url)],
                                        status := TaskStatus.completed }
                      let log := { log with
                        statusHistory := log.statusHistory ++ [TaskStatus.completed],
                        events := log.events ++ [TaskEvent.task_completed] }
                      match env.publishEvent TaskEvent.task_completed with
                      | .error e => ⟨t, log, some e⟩
                      | .ok _ =>
                        let log := { log with cleanups := log.cleanups + 1 }
                        match env.cleanupResult with
                        | .error e => ⟨t, log, some e⟩
                        | .ok _ => ⟨t, log, none⟩

/-- The reserved sentinel command selecting the composite merge pipeline. -/
def mergeSentinel : String := "__MERGE_AUDIO_VIDEO__"

/-- The handler lookup `self._task_handlers.get(task.command)`: only the
sentinel is registered (in `TaskWorker.__init__`), every other command falls
through to the default handler. -/
def dispatchHandler (env : Env) (t : Task) (log : Log) : PRes :=
  if t.command = mergeSentinel then handleMerge env t log else handleDefault env t log

/-- `TaskWorker.process_task`: mark Running, publish `task_started` (outside
the try block: a raising started-subscriber propagates), dispatch to the
registered handler for the sentinel command or the default handler, and on
any exception from the handler mark Failed with the stringified exception
and publish `task_failed` (which itself may raise and propagate). -/
def processTask (env : Env) (t0 : Task) : PRes :=
  let t := { t0 with status := TaskStatus.running }
  let log : Log := { statusHistory := [TaskStatus.running], cleanups := 0, spawns := [],
                     events := [TaskEvent.task_started] }
  match env.publishEvent TaskEvent.task_started with
  | .error e => ⟨t, log, some e⟩
  | .ok _ =>
    let r := dispatchHandler env t log
    match r.err with
    | none => r
    | some e =>
      let t := { r.task with status := TaskStatus.failed, error_message := some e }
      let log := { r.log with statusHistory := r.log.statusHistory ++ [TaskStatus.failed],
                              events := r.log.events ++ [TaskEvent.task_failed] }
      match env.publishEvent TaskEvent.task_failed with
      | .error e2 => ⟨t, log, some e2⟩
      | .ok _ => ⟨t, log, none⟩

/-- The body of `TaskRegisterRequest` (pydantic has already enforced the
presence and types of all three fields). -/
structure TaskRegisterRequest where
  ffmpeg_command : String
  input_files : List (String × String)
  output_files : List (String × String)
deriving DecidableEq, Repr

/-- The response payload of the registration and status endpoints. -/
structure TaskResponse where
  task_id : String
  status : TaskStatus
  output_urls : Option (List (String × String))
  error_message : Option String
deriving DecidableEq, Repr

/-- The shared mutable state touched by `register_task`: the module-level
`_tasks` table and the queue's pending sequence. -/
structure RouterState where
  tasks : List (String × Task)
  queue : List Task
deriving DecidableEq, Repr

/-- `register_task` from `api/ffmpeg_router.py`: reject a falsy
`ffmpeg_command` with HTTP 400, reject falsy `output_files` with HTTP 400,
otherwise create the pending task, store it in the table, enqueue it and
return its response. Raising `HTTPException` before any mutation returns
the state unchanged. `new_id` stands for the generated UUID. -/
def register_task (st : RouterState) (req : TaskRegisterRequest) (new_id : String) :
    RouterState × Except (Nat × String) TaskResponse :=
  if req.ffmpeg_command = "" then (st, .error (400, "No ffmpeg_command provided"))
  else if req.output_files.isEmpty then (st, .error (400, "No output_files provided"))
  else
    let task : Task := ⟨new_id, req.ffmpeg_command, req.input_files, req.output_files,
                        TaskStatus.pending, none, none⟩
    let st := { st with tasks := st.tasks ++ [(new_id, task)], queue := st.queue ++ [task] }
    (st, .ok ⟨new_id, TaskStatus.pending, none, none⟩)

/-- `TaskQueue.publish`, instrumented: run the registered callbacks for an
event in registration order; each callback either returns or raises.
Returns the zero-based indices of the callbacks actually invoked, and the
message of the first raising callback (which aborts the loop and propagates
to the caller, since the source has no exception handling around the
callback call). `i` is the index of the first remaining callback. -/
def publishRunAux (t : Task) : Nat → List (Task → Except String Unit) → List Nat × Option String
  | _, [] => ([], none)
  | i, c :: rest =>
    match c t with
    | .ok _ =>
      let r := publishRunAux t (i + 1) rest
      (i :: r.1, r.2)
    | .error e => ([i], some e)

/-- `TaskQueue.publish` over the full subscriber list (indices from 0). -/
def publishRun (cbs : List (Task → Except String Unit)) (t : Task) : List Nat × Option String :=
  publishRunAux t 0 cbs

/-! Concrete environments and tasks used to evaluate the pipeline at
specific inputs. `okEnv` is a benign environment: tool installed, already
absolute input paths (so `os.path.abspath` is the identity), every
subprocess exits 0, every download, upload, cleanup and subscriber
succeeds. The other environments change exactly one effect. -/

/-- Benign environment: everything succeeds. -/
def okEnv : Env where
  ffmpegInstalled := true
  abspath := id
  run := fun _ => .ok ⟨0, "", ""⟩
  fetch := fun _ => none
  tempDir := "/tmp/wd"
  upload := fun _ _ => .ok "https://s3/u"
  cleanupResult := .ok ()
  publishEvent := fun _ => .ok ()
  fileExists := fun _ => true
  floatRepr := id

/-- Environment in which every HTTP download raises. -/
def fetchFailEnv : Env :=
  { okEnv with fetch := fun _ => some "Connection error" }

/-- Environment in which the subscriber of the completed event raises. -/
def pubFailEnv : Env :=
  { okEnv with
    publishEvent := fun e =>
      match e with
      | TaskEvent.task_completed => .error "subscriber boom"
      | _ => .ok () }

/-- Environment in which uploading any key other than the first output of
`taskTwoOutputs` raises. -/
def upFailEnv : Env :=
  { okEnv with
    upload := fun _ k =>
      if k = "ffmpeg-outputs/tid2/v.mp4" then .ok "https://s3/v"
      else .error "upload failed" }

/-- Environment without ffmpeg on the search path: the executable check
fails, and any command handed to the shell exits 127 with a not-found
message on stderr. -/
def noFfmpegEnv : Env :=
  { okEnv with
    ffmpegInstalled := false
    run := fun _ => .ok ⟨127, "", "sh: 1: ffmpeg: not found"⟩ }

/-- An ordinary one-input one-output job. -/
def taskSimple : Task :=
  ⟨"tid1", "-i \x7b\x7bin_1\x7d\x7d -c copy \x7b\x7bout_1\x7d\x7d",
   [("in_1", "http://x/a.mp4")], [("out_1", "out.mp4")],
   TaskStatus.pending, none, none⟩

/-- An ordinary job with two outputs. -/
def taskTwoOutputs : Task :=
  ⟨"tid2", "-i \x7b\x7bin_1\x7d\x7d \x7b\x7bout_1\x7d\x7d \x7b\x7bout_2\x7d\x7d",
   [("in_1", "http://x/a.mp4")], [("out_1", "v.mp4"), ("out_2", "a.mp3")],
   TaskStatus.pending, none, none⟩

/-- A composite merge-audio-video job with one audio input. -/
def taskMerge : Task :=
  ⟨"tid3", "__MERGE_AUDIO_VIDEO__",
   [("video", "http://x/v.mp4"), ("audio_0", "http://x/a0.mp3")],
   [("out", "final.mp4")], TaskStatus.pending, none, none⟩

/-- Two subscribers: the first raises, the second would succeed. -/
def cbsBoom : List (Task → Except String Unit) :=
  [fun _ => .error "subscriber boom", fun _ => .ok ()]

/-- Two subscribers that both succeed. -/
def cbsOk : List (Task → Except String Unit) :=
  [fun _ => .ok (), fun _ => .ok ()]

/-! Helper lemmas about the string utilities, the placeholder scan, the
publish loop, the executor and the two task handlers. -/

theorem strData_append (a b : String) : (a ++ b).data = a.data ++ b.data := by
  cases a; cases b; rfl

theorem strMk_data (s : String) : String.mk s.data = s := by
  cases s; rfl

theorem listSub_cons (needle : List Char) (c : Char) (t : List Char) :
    listSub needle (c :: t) = (needle.isPrefixOf (c :: t) || listSub needle t) := rfl

theorem subScanF_no_braces (repl : String → String → String) (fuel : Nat) (l : List Char)
    (h : listSub braceBrace l = false) : subScanF repl fuel l = l := by
  induction fuel generalizing l with
  | zero => rfl
  | succ fuel ih =>
    cases l with
    | nil => rfl
    | cons c rest =>
      have hnp : braceBrace.isPrefixOf (c :: rest) = false := by
        have := listSub_cons braceBrace c rest
        rw [h] at this
        exact (Bool.or_eq_false_iff.mp this.symm).1
      have hrest : listSub braceBrace rest = false := by
        have := listSub_cons braceBrace c rest
        rw [h] at this
        exact (Bool.or_eq_false_iff.mp this.symm).2
      have hcond : ¬ (c = lbr ∧ rest.head? = some lbr) := by
        rintro ⟨hc, hh⟩
        cases rest with
        | nil => simp at hh
        | cons d t =>
          simp at hh
          subst hc; subst hh
          simp [braceBrace, List.isPrefixOf] at hnp
      simp only [subScanF, if_neg hcond]
      rw [ih rest hrest]

theorem shlexSafe_not_space (c : Char) (h : shlexSafe c = true) : pyIsSpace c = false := by
  by_contra hc
  have hc' : pyIsSpace c = true := by
    revert hc; cases pyIsSpace c <;> simp
  simp only [pyIsSpace, Bool.or_eq_true, decide_eq_true_eq] at hc'
  rcases hc' with ((((h1 | h1) | h1) | h1) | h1) | h1 <;> subst h1 <;>
    exact absurd h (by decide)

theorem shlexQuote_ends (p : String) :
    ∃ l x, (shlexQuote p).data = l ++ [x] ∧ pyIsSpace x = false := by
  by_cases he : p.data = []
  · refine ⟨[sqc], sqc, ?_, by decide⟩
    unfold shlexQuote
    rw [if_pos he]
    rfl
  · by_cases hs : p.data.all shlexSafe = true
    · rcases List.eq_nil_or_concat p.data with h | ⟨l, x, h⟩
      · exact absurd h he
      · refine ⟨l, x, ?_, ?_⟩
        · unfold shlexQuote
          split_ifs
          simpa using h
        · have hx : shlexSafe x = true := by
            have := List.all_eq_true.mp hs x (by rw [h]; simp)
            simpa using this
          exact shlexSafe_not_space x hx
    · refine ⟨sqc :: escQuote p.data, sqc, ?_, by decide⟩
      unfold shlexQuote
      split_ifs
      simp

theorem dropWhile_head_false {p : Char → Bool} (c : Char) (t : List Char) (h : p c = false) :
    (c :: t).dropWhile p = c :: t := by
  simp [List.dropWhile, h]

theorem pyStrip_id (s : String)
    (hh : s.data.head?.map pyIsSpace = some false)
    (hl : ∃ l x, s.data = l ++ [x] ∧ pyIsSpace x = false) :
    pyStrip s = s := by
  obtain ⟨l, x, hlx, hx⟩ := hl
  cases hd : s.data with
  | nil => rw [hd] at hlx; exact absurd hlx.symm (by simp)
  | cons c t =>
    rw [hd] at hh
    simp only [List.head?] at hh
    have hc : pyIsSpace c = false := by
      injection hh with hh'
    unfold pyStrip
    rw [hd, dropWhile_head_false c t hc]
    have hct : c :: t = l ++ [x] := hd ▸ hlx
    rw [hct, List.reverse_append, List.reverse_singleton, List.singleton_append,
        dropWhile_head_false x l.reverse hx, List.reverse_cons, List.reverse_reverse,
        ← hlx, strMk_data s]

theorem strNil_append (s : String) : "" ++ s = s := by
  cases s; rfl

theorem appendEnds (args p : String)
    (hh : args.data.head?.map pyIsSpace = some false) :
    pyStrip (args ++ " " ++ shlexQuote p) = args ++ " " ++ shlexQuote p := by
  apply pyStrip_id
  · rw [strData_append, strData_append]
    cases hd : args.data with
    | nil => rw [hd] at hh; simp at hh
    | cons c t =>
      rw [hd] at hh
      simp only [List.head?] at hh
      simp [List.head?]
      injection hh
  · obtain ⟨l, x, hlx, hx⟩ := shlexQuote_ends p
    refine ⟨args.data ++ [' '] ++ l, x, ?_, hx⟩
    rw [strData_append, strData_append, hlx]
    have : (" " : String).data = [' '] := rfl
    rw [this]
    simp [List.append_assoc]

theorem strAppend_assoc (a b c : String) : a ++ b ++ c = a ++ (b ++ c) := by
  cases a with
  | mk la =>
    cases b with
    | mk lb =>
      cases c with
      | mk lc =>
        show String.mk (la ++ lb ++ lc) = String.mk (la ++ (lb ++ lc))
        rw [List.append_assoc]

theorem pyStrip_dashy (p : String) :
    pyStrip ("-y " ++ shlexQuote p) = "-y " ++ shlexQuote p := by
  apply pyStrip_id
  · rfl
  · obtain ⟨l, x, hlx, hx⟩ := shlexQuote_ends p
    refine ⟨'-' :: 'y' :: ' ' :: l, x, ?_, hx⟩
    rw [strData_append, hlx]
    rfl

theorem render_alias_with_output_path (env : Env) (p : String) :
    renderCommand env "-y \x7b\x7boutput_filename\x7d\x7d" [] (some p) none
      = "ffmpeg -y " ++ shlexQuote p := by
  have hscan : String.mk (subScanF (replacePlaceholder env [] (some p) none)
      ("-y \x7b\x7boutput_filename\x7d\x7d".data.length + 1)
      "-y \x7b\x7boutput_filename\x7d\x7d".data) = "-y " ++ shlexQuote p := by
    rw [show subScanF (replacePlaceholder env [] (some p) none)
        ("-y \x7b\x7boutput_filename\x7d\x7d".data.length + 1)
        "-y \x7b\x7boutput_filename\x7d\x7d".data
        = '-' :: 'y' :: ' ' :: ((shlexQuote p).data ++ []) from rfl, List.append_nil]
    exact strMk_data ("-y " ++ shlexQuote p)
  simp only [renderCommand, hscan]
  split_ifs with h1 h2 h3
  · exact absurd h1.2.1 (by decide)
  · exact absurd h1.2.1 (by decide)
  · rw [pyStrip_dashy p] at h3
    have hf : ffmpegChars.isPrefixOf ("-y " ++ shlexQuote p).data = false := rfl
    rw [hf] at h3
    simp at h3
  · rw [pyStrip_dashy p, ← strAppend_assoc]
    rfl

theorem publishRunAux_all_ok (t : Task) (cbs : List (Task → Except String Unit))
    (h : ∀ c ∈ cbs, c t = .ok ()) (i : Nat) :
    publishRunAux t i cbs = ((List.range cbs.length).map (· + i), none) := by
  induction cbs generalizing i with
  | nil => simp [publishRunAux]
  | cons c rest ih =>
    have hc : c t = .ok () := h c (by simp)
    simp only [publishRunAux, hc]
    rw [ih (fun d hd => h d (by simp [hd])) (i + 1)]
    simp only [List.length_cons, List.range_succ_eq_map, List.map_cons, List.map_map,
      Nat.zero_add, Prod.mk.injEq, List.cons.injEq]
    refine ⟨⟨trivial, ?_⟩, trivial⟩
    apply List.map_congr_left
    intro a _
    simp only [Function.comp_apply]
    omega

theorem publishRunAux_first_err (t : Task) (pre : List (Task → Except String Unit))
    (cb : Task → Except String Unit) (post : List (Task → Except String Unit)) (e : String)
    (hpre : ∀ d ∈ pre, d t = .ok ()) (hc : cb t = .error e) (i : Nat) :
    publishRunAux t i (pre ++ cb :: post)
      = ((List.range (pre.length + 1)).map (· + i), some e) := by
  induction pre generalizing i with
  | nil => simp [publishRunAux, hc, List.range_succ]
  | cons d rest ih =>
    have hd : d t = .ok () := hpre d (by simp)
    simp only [List.cons_append, publishRunAux, hd, List.append_eq]
    rw [ih (fun d' hd' => hpre d' (by simp [hd'])) (i + 1)]
    simp only [List.length_cons, List.range_succ_eq_map, List.map_cons, List.map_map,
      Nat.zero_add, Prod.mk.injEq, List.cons.injEq]
    refine ⟨⟨trivial, by omega, ?_⟩, trivial⟩
    apply List.map_congr_left
    intro a _
    simp only [Function.comp_apply]
    omega

theorem execute_spawn_err (env : Env) (args : String) (inputs : List (String × String))
    (op : Option String) (ofs : Option (List (String × String)))
    (hin : env.ffmpegInstalled = true) (e : String)
    (hr : env.run (renderCommand env args inputs op ofs) = .error e) :
    execute env args inputs op ofs
      = ((false, some ("Failed to execute FFmpeg: " ++ e)), [renderCommand env args inputs op ofs]) := by
  simp [execute, hin, hr]

theorem execute_run_ok (env : Env) (args : String) (inputs : List (String × String))
    (op : Option String) (ofs : Option (List (String × String)))
    (hin : env.ffmpegInstalled = true) (r : SpawnOut)
    (hr : env.run (renderCommand env args inputs op ofs) = .ok r) :
    execute env args inputs op ofs
      = (((if r.rc = 0 then true else false),
          if r.rc = 0 then none
          else some ("FFmpeg error: " ++ (if r.err ≠ "" then r.err else r.out))),
         [renderCommand env args inputs op ofs]) := by
  simp only [execute, hin, Bool.not_true, Bool.false_eq_true, if_false, hr]
  by_cases h0 : r.rc = 0
  · simp [h0]
  · simp [h0]

theorem handleDefault_hist (env : Env) (t : Task) (log : Log)
    (hp : ∀ ev, env.publishEvent ev = .ok ()) (hc : env.cleanupResult = .ok ()) :
    ((handleDefault env t log).err = none ∧
      ((handleDefault env t log).log.statusHistory = log.statusHistory ++ [TaskStatus.completed] ∨
       (handleDefault env t log).log.statusHistory = log.statusHistory ++ [TaskStatus.failed]))
    ∨ ((handleDefault env t log).err ≠ none ∧
       (handleDefault env t log).log.statusHistory = log.statusHistory) := by
  cases hdl : downloadFiles env t.input_files with
  | error e =>
    right
    simp [handleDefault, hdl]
  | ok lf =>
    simp only [handleDefault, hdl]
    split_ifs with hex
    · cases hup : (uploadOutputs env t.task_id t.output_files
          (t.output_files.map fun p => (p.1, osJoin env.tempDir p.2))).2 with
      | some e =>
        right
        simp [hup]
      | none =>
        left
        simp [hup, hp, hc]
    · left
      simp [hp, hc]

theorem handleMerge_hist (env : Env) (t : Task) (log : Log)
    (hp : ∀ ev, env.publishEvent ev = .ok ()) (hc : env.cleanupResult = .ok ()) :
    ((handleMerge env t log).err = none ∧
      (handleMerge env t log).log.statusHistory = log.statusHistory ++ [TaskStatus.completed])
    ∨ ((handleMerge env t log).err ≠ none ∧
       (handleMerge env t log).log.statusHistory = log.statusHistory) := by
  by_cases hv : (alookup t.input_files "video").getD "" = ""
  · right
    simp [handleMerge, hv]
  · cases hfv : env.fetch ((alookup t.input_files "video").getD "") with
    | some e =>
      right
      simp [handleMerge, hv, hfv]
    | none =>
      cases hca : collectAudios env t.input_files (t.input_files.length + 1) 0 with
      | error e =>
        right
        simp [handleMerge, hv, hfv, hca]
      | ok audio_files =>
        by_cases hae : audio_files.isEmpty = true
        · right
          simp [handleMerge, hv, hfv, hca, hae]
        · cases hrc : env.run ("ffmpeg -y -f concat -safe 0 -i " ++ osJoin env.tempDir "concat.txt"
              ++ " -c copy " ++ osJoin env.tempDir "merged_audio.mp3") with
          | error e =>
            right
            simp [handleMerge, hv, hfv, hca, hae, hrc]
          | ok cr =>
            cases hpr : env.run ("ffprobe -v error -show_entries format=duration -of default=noprint_wrappers=1:nokey=1 "
                ++ osJoin env.tempDir "merged_audio.mp3") with
            | error e =>
              right
              simp [handleMerge, hv, hfv, hca, hae, hrc, hpr]
            | ok pr =>
              by_cases hfl : pyFloatOk (pyStrip pr.out) = true
              · set ofn := (match t.output_files with
                  | [] => "output.mp4"
                  | p :: _ => p.2) with hofn
                cases hmr : env.run ("ffmpeg -y -stream_loop -1 -i " ++ osJoin env.tempDir "loop_video.mp4"
                    ++ " -i " ++ osJoin env.tempDir "merged_audio.mp3"
                    ++ " -map 0:v -map 1:a -shortest -c:v libx264 -preset fast -crf 18 -c:a aac -b:a 192k -t "
                    ++ env.floatRepr (pyStrip pr.out) ++ " " ++ osJoin env.tempDir ofn) with
                | error e =>
                  right
                  simp only [handleMerge, hv, hfv, hca, hae, hrc, hpr, hfl, ← hofn, hmr]
                  simp [hv]
                | ok mr =>
                  by_cases hbad : mr.rc ≠ 0 ∨ env.fileExists (osJoin env.tempDir ofn) = false
                  · right
                    simp only [handleMerge, hv, hfv, hca, hae, hrc, hpr, hfl, ← hofn, hmr]
                    simp [hv, hbad, hc]
                  · cases hu : env.upload (osJoin env.tempDir ofn)
                        ("youtube-merge/" ++ t.task_id ++ "/" ++ ofn) with
                    | error e =>
                      right
                      simp only [handleMerge, hv, hfv, hca, hae, hrc, hpr, hfl, ← hofn, hmr]
                      simp [hv, hbad, hu]
                    | ok url =>
                      left
                      simp only [handleMerge, hv, hfv, hca, hae, hrc, hpr, hfl, ← hofn, hmr]
                      simp [hv, hbad, hu, hp, hc]
              · right
                simp [handleMerge, hv, hfv, hca, hae, hrc, hpr, hfl]

theorem execute_false_msg (env : Env) (args : String) (inputs : List (String × String))
    (op : Option String) (ofs : Option (List (String × String)))
    (h : (execute env args inputs op ofs).1.1 = false) :
    ∃ m, (execute env args inputs op ofs).1.2 = some m := by
  cases hin : env.ffmpegInstalled with
  | false => exact ⟨"FFmpeg is not installed on the system", by simp [execute, hin]⟩
  | true =>
    cases hr : env.run (renderCommand env args inputs op ofs) with
    | error e => exact ⟨"Failed to execute FFmpeg: " ++ e, by simp [execute, hin, hr]⟩
    | ok r =>
      by_cases h0 : r.rc = 0
      · exfalso
        rw [show (execute env args inputs op ofs).1.1 = true by
          simp [execute, hin, hr, h0]] at h
        exact Bool.true_eq_false.mp h
      · exact ⟨"FFmpeg error: " ++ (if r.err ≠ "" then r.err else r.out),
          by simp [execute, hin, hr, h0]⟩

theorem handleDefault_shape (env : Env) (t : Task) (log : Log) :
    ((handleDefault env t log).err ≠ none) ∨
    ((handleDefault env t log).task.status = TaskStatus.completed ∧
     (handleDefault env t log).task.error_message = t.error_message ∧
     (handleDefault env t log).task.output_urls ≠ none) ∨
    ((handleDefault env t log).task.status = TaskStatus.failed ∧
     (handleDefault env t log).task.error_message ≠ none) := by
  cases hdl : downloadFiles env t.input_files with
  | error e =>
    left
    simp [handleDefault, hdl]
  | ok lf =>
    have hmsg := execute_false_msg env t.command lf none
      (some (t.output_files.map fun p => (p.1, osJoin env.tempDir p.2)))
    simp only [handleDefault, hdl]
    generalize hE : execute env t.command lf none
      (some (t.output_files.map fun p => (p.1, osJoin env.tempDir p.2))) = E at hmsg ⊢
    split_ifs with hex
    · cases hup : (uploadOutputs env t.task_id t.output_files
          (t.output_files.map fun p => (p.1, osJoin env.tempDir p.2))).2 with
      | some e =>
        left
        simp [hup]
      | none =>
        cases hpub : env.publishEvent TaskEvent.task_completed with
        | error e =>
          left
          simp [hup, hpub]
        | ok u =>
          cases hcl : env.cleanupResult with
          | error e =>
            left
            simp [hup, hpub, hcl]
          | ok u2 =>
            right; left
            simp [hup, hpub, hcl]
    · have hex2 : E.1.1 = false := by
        cases hb : E.1.1 with
        | false => rfl
        | true => exact absurd hb hex
      obtain ⟨m, hm⟩ := hmsg hex2
      cases hpub : env.publishEvent TaskEvent.task_failed with
      | error e =>
        left
        simp [hpub]
      | ok u =>
        cases hcl : env.cleanupResult with
        | error e =>
          left
          simp [hpub, hcl]
        | ok u2 =>
          right; right
          simp [hpub, hcl, hm]

theorem handleMerge_shape (env : Env) (t : Task) (log : Log) :
    ((handleMerge env t log).err ≠ none) ∨
    ((handleMerge env t log).task.status = TaskStatus.completed ∧
     (handleMerge env t log).task.error_message = t.error_message ∧
     (handleMerge env t log).task.output_urls ≠ none) := by
  by_cases hv : (alookup t.input_files "video").getD "" = ""
  · left
    simp [handleMerge, hv]
  · cases hfv : env.fetch ((alookup t.input_files "video").getD "") with
    | some e =>
      left
      simp [handleMerge, hv, hfv]
    | none =>
      cases hca : collectAudios env t.input_files (t.input_files.length + 1) 0 with
      | error e =>
        left
        simp [handleMerge, hv, hfv, hca]
      | ok audio_files =>
        by_cases hae : audio_files.isEmpty = true
        · left
          simp [handleMerge, hv, hfv, hca, hae]
        · cases hrc : env.run ("ffmpeg -y -f concat -safe 0 -i " ++ osJoin env.tempDir "concat.txt"
              ++ " -c copy " ++ osJoin env.tempDir "merged_audio.mp3") with
          | error e =>
            left
            simp [handleMerge, hv, hfv, hca, hae, hrc]
          | ok cr =>
            cases hpr : env.run ("ffprobe -v error -show_entries format=duration -of default=noprint_wrappers=1:nokey=1 "
                ++ osJoin env.tempDir "merged_audio.mp3") with
            | error e =>
              left
              simp [handleMerge, hv, hfv, hca, hae, hrc, hpr]
            | ok pr =>
              by_cases hfl : pyFloatOk (pyStrip pr.out) = true
              · set ofn := (match t.output_files with
                  | [] => "output.mp4"
                  | p :: _ => p.2) with hofn
                cases hmr : env.run ("ffmpeg -y -stream_loop -1 -i " ++ osJoin env.tempDir "loop_video.mp4"
                    ++ " -i " ++ osJoin env.tempDir "merged_audio.mp3"
                    ++ " -map 0:v -map 1:a -shortest -c:v libx264 -preset fast -crf 18 -c:a aac -b:a 192k -t "
                    ++ env.floatRepr (pyStrip pr.out) ++ " " ++ osJoin env.tempDir ofn) with
                | error e =>
                  left
                  simp only [handleMerge, hv, hfv, hca, hae, hrc, hpr, hfl, ← hofn, hmr]
                  simp [hv]
                | ok mr =>
                  by_cases hbad : mr.rc ≠ 0 ∨ env.fileExists (osJoin env.tempDir ofn) = false
                  · left
                    simp only [handleMerge, hv, hfv, hca, hae, hrc, hpr, hfl, ← hofn, hmr]
                    simp [hv, hbad]
                    cases hcl : env.cleanupResult <;> simp
                  · cases hu : env.upload (osJoin env.tempDir ofn)
                        ("youtube-merge/" ++ t.task_id ++ "/" ++ ofn) with
                    | error e =>
                      left
                      simp only [handleMerge, hv, hfv, hca, hae, hrc, hpr, hfl, ← hofn, hmr]
                      simp [hv, hbad, hu]
                    | ok url =>
                      cases hpub : env.publishEvent TaskEvent.task_completed with
                      | error e =>
                        left
                        simp only [handleMerge, hv, hfv, hca, hae, hrc, hpr, hfl, ← hofn, hmr]
                        simp [hv, hbad, hu, hpub]
                      | ok u =>
                        cases hcl : env.cleanupResult with
                        | error e =>
                          left
                          simp only [handleMerge, hv, hfv, hca, hae, hrc, hpr, hfl, ← hofn, hmr]
                          simp [hv, hbad, hu, hpub, hcl]
                        | ok u2 =>
                          right
                          simp only [handleMerge, hv, hfv, hca, hae, hrc, hpr, hfl, ← hofn, hmr]
                          simp [hv, hbad, hu, hpub, hcl]
              · left
                simp [handleMerge, hv, hfv, hca, hae, hrc, hpr, hfl]

theorem downloadFiles_ok (env : Env) (ins : List (String × String))
    (hf : ∀ u, env.fetch u = none) :
    downloadFiles env ins = .ok (ins.map fun p => (p.1, osJoin env.tempDir p.1)) := by
  induction ins with
  | nil => rfl
  | cons p rest ih =>
    cases p with
    | mk fn url => simp [downloadFiles, hf url, ih]

theorem execute_not_installed (env : Env) (hi : env.ffmpegInstalled = false)
    (args : String) (inputs : List (String × String)) (op : Option String)
    (ofs : Option (List (String × String))) :
    execute env args inputs op ofs
      = ((false, some "FFmpeg is not installed on the system"), []) := by
  simp [execute, hi]


/-! The claims. -/

/-- C1: the claim says the per-job working area is released on every exit
path, in particular when fetching an input raises before rendering. In the
code, `process_task` catches the exception and marks the job Failed but
never calls `FileManager.cleanup()` on that path: at a concrete job whose
single input download raises, the run ends Failed with zero cleanup
calls, so the fetched files are never removed. -/
theorem C1_fetch_exception_leaks_working_area :
    (processTask fetchFailEnv taskSimple).task.status = TaskStatus.failed ∧
    (processTask fetchFailEnv taskSimple).task.error_message = some "Connection error" ∧
    (processTask fetchFailEnv taskSimple).log.cleanups = 0 ∧
    (processTask fetchFailEnv taskSimple).err = none := by decide

/-- C2 counterexample: a job whose pipeline succeeded is re-marked Failed.
When the subscriber of the completed event raises, `process_task` catches
the exception after `task.status` was already set to Completed and assigns
Failed: the status history is Running, Completed, Failed — a back-transition
out of the terminal Completed state. -/
theorem C2_completed_job_remarked_failed :
    (processTask pubFailEnv taskSimple).log.statusHistory
      = [TaskStatus.running, TaskStatus.completed, TaskStatus.failed] ∧
    (processTask pubFailEnv taskSimple).task.status = TaskStatus.failed := by decide

/-- C2 amended: provided publishing events and cleanup do not raise, a
processed job's status history is exactly Running then Completed, or
Running then Failed — monotonic with no back-transitions. -/
theorem C2_status_monotonic_when_publish_and_cleanup_succeed (env : Env) (t : Task)
    (hp : ∀ ev, env.publishEvent ev = .ok ()) (hc : env.cleanupResult = .ok ()) :
    (processTask env t).log.statusHistory = [TaskStatus.running, TaskStatus.completed] ∨
    (processTask env t).log.statusHistory = [TaskStatus.running, TaskStatus.failed] := by
  simp only [processTask, hp]
  by_cases hcm : t.command = mergeSentinel
  · have hd : dispatchHandler env { t with status := TaskStatus.running }
        ⟨[TaskStatus.running], 0, [], [TaskEvent.task_started]⟩
        = handleMerge env { t with status := TaskStatus.running }
          ⟨[TaskStatus.running], 0, [], [TaskEvent.task_started]⟩ := by
      unfold dispatchHandler
      exact if_pos hcm
    rw [hd]
    rcases handleMerge_hist env { t with status := TaskStatus.running }
        ⟨[TaskStatus.running], 0, [], [TaskEvent.task_started]⟩ hp hc with ⟨he, hh⟩ | ⟨he, hh⟩
    · simp only [he]
      left
      simpa using hh
    · obtain ⟨e, hse⟩ := Option.ne_none_iff_exists'.mp he
      simp only [hse, hp]
      right
      rw [hh]
      rfl
  · have hd : dispatchHandler env { t with status := TaskStatus.running }
        ⟨[TaskStatus.running], 0, [], [TaskEvent.task_started]⟩
        = handleDefault env { t with status := TaskStatus.running }
          ⟨[TaskStatus.running], 0, [], [TaskEvent.task_started]⟩ := by
      unfold dispatchHandler
      exact if_neg hcm
    rw [hd]
    rcases handleDefault_hist env { t with status := TaskStatus.running }
        ⟨[TaskStatus.running], 0, [], [TaskEvent.task_started]⟩ hp hc with ⟨he, hh⟩ | ⟨he, hh⟩
    · simp only [he]
      rcases hh with hh | hh
      · left
        simpa using hh
      · right
        simpa using hh
    · obtain ⟨e, hse⟩ := Option.ne_none_iff_exists'.mp he
      simp only [hse, hp]
      right
      rw [hh]
      rfl

/-- C2 witness: the monotonicity theorem applied to the benign environment
and a concrete job. -/
theorem C2_status_monotonic_witness :
    (processTask okEnv taskSimple).log.statusHistory
      = [TaskStatus.running, TaskStatus.completed] ∨
    (processTask okEnv taskSimple).log.statusHistory
      = [TaskStatus.running, TaskStatus.failed] :=
  C2_status_monotonic_when_publish_and_cleanup_succeed okEnv taskSimple (fun _ => rfl) rfl

/-- C3: the claim says a placeholder resolves with arbitrary whitespace
between the braces and the key because the key is the trimmed inner text.
The code does not trim the captured group, and the regex's greedy inner
group swallows whitespace before the closing braces, so a placeholder with
a trailing space inside the braces is left verbatim (first conjunct),
while the same placeholder without the trailing space substitutes the
first input path (second conjunct) and an out-of-range index is left
unchanged (third conjunct). The executor's own docstring writes its
supported placeholders with surrounding spaces, and the in-repo
simulation tests call `.strip()` on the key, so the spec describes the
intent and the missing trim is the slip. -/
theorem C3_trailing_space_placeholder_left_unchanged :
    renderCommand okEnv "-i \x7b\x7b in_1 \x7d\x7d -c copy" [("in_1", "/tmp/wd/in_1")] none
      (some [("out_1", "/tmp/wd/out.mp4")]) = "ffmpeg -i \x7b\x7b in_1 \x7d\x7d -c copy" ∧
    renderCommand okEnv "-i \x7b\x7bin_1\x7d\x7d -c copy" [("in_1", "/tmp/wd/in_1")] none
      (some [("out_1", "/tmp/wd/out.mp4")]) = "ffmpeg -i /tmp/wd/in_1 -c copy" ∧
    renderCommand okEnv "-i \x7b\x7bin_2\x7d\x7d" [("in_1", "/tmp/wd/in_1")] none
      (some [("out_1", "/tmp/wd/out.mp4")]) = "ffmpeg -i \x7b\x7bin_2\x7d\x7d" := by decide

/-- C4 counterexample: a template with no placeholders and a single-entry
output map. The append condition requires a falsy `output_files`, so with
the one-entry map nothing is appended: the rendered command is the bare
template with the tool token, and the output path appears nowhere in it. -/
theorem C4_single_entry_output_map_skips_append :
    renderCommand okEnv "-i /tmp/wd/in.mp4 -c copy" [] none
      (some [("out_1", "/tmp/wd/final.mp4")]) = "ffmpeg -i /tmp/wd/in.mp4 -c copy" ∧
    listSub "/tmp/wd/final.mp4".data "ffmpeg -i /tmp/wd/in.mp4 -c copy".data = false := by decide

/-- C4 amended: the trailing-append fallback fires only when no output map
was supplied at all and the separate `output_path` argument is a non-empty
string (and the template has no placeholder opener and no `output`
substring): then the rendered command is the template followed by the
shell-quoted path, with the `ffmpeg` token prefixed when absent. With any
non-empty output map — the worker always passes one — the fallback is
skipped. -/
theorem C4_append_only_without_explicit_output_map (env : Env) (args p : String) (inputs : List (String × String))
    (hh : args.data.head?.map pyIsSpace = some false)
    (hbr : listSub braceBrace args.data = false)
    (hout : listSub outputChars args.data = false)
    (hp : p ≠ "") :
    ∃ head, renderCommand env args inputs (some p) none
      = head ++ (args ++ " " ++ shlexQuote p) ∧ (head = "" ∨ head = "ffmpeg ") := by
  have hscan0 : subScanF (replacePlaceholder env inputs (some p) none)
      (args.data.length + 1) args.data = args.data := subScanF_no_braces _ _ _ hbr
  have hren : renderCommand env args inputs (some p) none =
      (if ffmpegChars.isPrefixOf (args ++ " " ++ shlexQuote p).data
       then args ++ " " ++ shlexQuote p else "ffmpeg " ++ (args ++ " " ++ shlexQuote p)) := by
    simp only [renderCommand, hscan0, strMk_data]
    rw [if_pos (⟨rfl, ⟨hbr, ⟨hout, by simpa using hp⟩⟩⟩ :
      (none : Option (List (String × String))).getD [] = [] ∧
      listSub braceBrace args.data = false ∧ listSub outputChars args.data = false ∧
      (some p : Option String).getD "" ≠ "")]
    have hgd : (some p : Option String).getD "" = p := rfl
    rw [hgd, appendEnds args p hh]
  by_cases hpre : ffmpegChars.isPrefixOf (args ++ " " ++ shlexQuote p).data = true
  · refine ⟨"", ?_, Or.inl rfl⟩
    rw [hren, if_pos hpre, strNil_append]
  · refine ⟨"ffmpeg ", ?_, Or.inr rfl⟩
    rw [hren, if_neg hpre]

/-- C4 witness: the amended append theorem at a concrete template and
path. -/
theorem C4_append_witness :
    ∃ head, renderCommand okEnv "-i /tmp/wd/in.mp4 -c copy" [] (some "/tmp/wd/final.mp4") none
      = head ++ ("-i /tmp/wd/in.mp4 -c copy" ++ " " ++ shlexQuote "/tmp/wd/final.mp4")
      ∧ (head = "" ∨ head = "ffmpeg ") :=
  C4_append_only_without_explicit_output_map okEnv "-i /tmp/wd/in.mp4 -c copy"
    "/tmp/wd/final.mp4" [] (by decide) (by decide) (by decide) (by decide)

/-- C5 counterexample: the alias `output` with a single-entry output map
and no `output_path` argument — exactly how the worker invokes the
executor. The alias branch consults only the `output_path` argument and
returns the placeholder unchanged; the single default output of the map is
never substituted. -/
theorem C5_alias_not_substituted_from_output_map :
    renderCommand okEnv "\x7b\x7boutput\x7d\x7d" [] none
      (some [("out_1", "/tmp/wd/o.mp4")]) = "ffmpeg \x7b\x7boutput\x7d\x7d" ∧
    listSub "/tmp/wd/o.mp4".data "ffmpeg \x7b\x7boutput\x7d\x7d".data = false := by decide

/-- C5 amended: a canonical output alias placeholder is substituted
(shell-quoted) exactly when the separate `output_path` argument is
provided; when it is absent the alias is left unchanged even though the
output map has exactly one entry. -/
theorem C5_alias_substituted_only_from_output_path :
    (∀ (env : Env) (p : String),
      renderCommand env "-y \x7b\x7boutput_filename\x7d\x7d" [] (some p) none
        = "ffmpeg -y " ++ shlexQuote p) ∧
    (∀ env : Env,
      renderCommand env "-y \x7b\x7boutput_filename\x7d\x7d" [] none
        (some [("out_1", "/tmp/wd/o.mp4")])
        = "ffmpeg -y \x7b\x7boutput_filename\x7d\x7d") :=
  ⟨render_alias_with_output_path, fun _ => rfl⟩

/-- C6 counterexample: the composite merge job in an environment without
the tool. It performs no installation check: it spawns the concat and
probe commands anyway (two spawned commands) and fails only afterwards,
with a float-conversion diagnostic from the empty probe output rather than
the missing-dependency diagnostic. -/
theorem C6_merge_job_invokes_tool_despite_missing_ffmpeg :
    (processTask noFfmpegEnv taskMerge).task.status = TaskStatus.failed ∧
    (processTask noFfmpegEnv taskMerge).log.spawns.length = 2 ∧
    (processTask noFfmpegEnv taskMerge).task.error_message
      = some ("could not convert string to float: " ++ String.mk [sqc, sqc]) ∧
    (processTask noFfmpegEnv taskMerge).task.error_message
      ≠ some "FFmpeg is not installed on the system" := by decide

/-- C6 amended: non-composite jobs do fail with the missing-dependency
diagnostic and never spawn the tool (inputs are still fetched first): with
the tool absent, downloads succeeding and event publication and cleanup
not raising, any job whose command is not the merge sentinel ends Failed
with the missing-dependency message and an empty spawn trace. -/
theorem C6_default_jobs_fail_without_spawning (env : Env) (t : Task) (hi : env.ffmpegInstalled = false)
    (hcm : t.command ≠ mergeSentinel) (hf : ∀ u, env.fetch u = none)
    (hp : ∀ ev, env.publishEvent ev = .ok ()) (hc : env.cleanupResult = .ok ()) :
    (processTask env t).task.status = TaskStatus.failed ∧
    (processTask env t).task.error_message = some "FFmpeg is not installed on the system" ∧
    (processTask env t).log.spawns = [] ∧ (processTask env t).err = none := by
  simp only [processTask, hp]
  have hd : dispatchHandler env { t with status := TaskStatus.running }
      ⟨[TaskStatus.running], 0, [], [TaskEvent.task_started]⟩
      = handleDefault env { t with status := TaskStatus.running }
        ⟨[TaskStatus.running], 0, [], [TaskEvent.task_started]⟩ := by
    unfold dispatchHandler
    exact if_neg hcm
  rw [hd]
  simp only [handleDefault, downloadFiles_ok env _ hf, execute_not_installed env hi]
  simp [hp, hc]

/-- C6 witness: the default-job theorem at the tool-less environment and a
concrete ordinary job. -/
theorem C6_default_jobs_witness :
    (processTask noFfmpegEnv taskSimple).task.status = TaskStatus.failed ∧
    (processTask noFfmpegEnv taskSimple).task.error_message
      = some "FFmpeg is not installed on the system" ∧
    (processTask noFfmpegEnv taskSimple).log.spawns = [] ∧
    (processTask noFfmpegEnv taskSimple).err = none :=
  C6_default_jobs_fail_without_spawning noFfmpegEnv taskSimple rfl (by decide)
    (fun _ => rfl) (fun _ => rfl) rfl

/-- C7 counterexample: two subscribers where the first raises. Publishing
invokes only the first (index 0); the exception aborts the loop, so the
second registered subscriber never runs, contradicting the claim that one
handler's exception does not prevent the remaining subscribers. -/
theorem C7_subscriber_exception_stops_remaining :
    publishRun cbsBoom taskSimple = ([0], some "subscriber boom") ∧
    cbsBoom.length = 2 := ⟨rfl, rfl⟩

/-- C7 amended: `publish` invokes subscribers in registration order; when
no handler raises every subscriber is invoked, and when a handler raises
the handlers before it and the raising one are invoked, the remaining
subscribers are skipped, and the exception propagates to the caller. -/
theorem C7_publish_in_order_until_first_exception
    (cbs : List (Task → Except String Unit)) (t : Task) :
    ((∀ c ∈ cbs, c t = .ok ()) → publishRun cbs t = (List.range cbs.length, none)) ∧
    (∀ pre cb post e, cbs = pre ++ cb :: post → (∀ d ∈ pre, d t = .ok ()) →
      cb t = .error e → publishRun cbs t = (List.range (pre.length + 1), some e)) := by
  constructor
  · intro h
    unfold publishRun
    rw [publishRunAux_all_ok t cbs h 0]
    simp
  · intro pre cb post e hsplit hpre hcb
    subst hsplit
    unfold publishRun
    rw [publishRunAux_first_err t pre cb post e hpre hcb 0]
    simp

/-- C7 witness: with two succeeding subscribers both are invoked in
order. -/
theorem C7_publish_order_witness :
    publishRun cbsOk taskSimple = (List.range cbsOk.length, none) := by
  have h := (C7_publish_in_order_until_first_exception cbsOk taskSimple).1
  apply h
  intro c hc
  fin_cases hc <;> rfl

/-- C8: `execute` returns success exactly when the spawned process exits
zero; on nonzero exit the diagnostic carries the captured stderr when
non-empty, else the captured stdout; and a spawn exception is returned as
a failure result with a diagnostic instead of propagating. -/
theorem C8_execute_exit_code_and_diagnostic (env : Env) (args : String)
    (inputs : List (String × String)) (op : Option String)
    (ofs : Option (List (String × String))) (hin : env.ffmpegInstalled = true) :
    (∀ r : SpawnOut, env.run (renderCommand env args inputs op ofs) = .ok r →
      ((r.rc = 0 → execute env args inputs op ofs
          = ((true, none), [renderCommand env args inputs op ofs])) ∧
       (r.rc ≠ 0 → execute env args inputs op ofs
          = ((false, some ("FFmpeg error: " ++ (if r.err ≠ "" then r.err else r.out))),
             [renderCommand env args inputs op ofs])))) ∧
    (∀ e : String, env.run (renderCommand env args inputs op ofs) = .error e →
      execute env args inputs op ofs
        = ((false, some ("Failed to execute FFmpeg: " ++ e)),
           [renderCommand env args inputs op ofs])) := by
  constructor
  · intro r hr
    constructor
    · intro h0
      simp [execute, hin, hr, h0]
    · intro h0
      simp [execute, hin, hr, h0]
  · intro e he
    exact execute_spawn_err env args inputs op ofs hin e he

/-- C8 witness: in the benign environment the executor reports success on
the zero exit code. -/
theorem C8_execute_witness :
    execute okEnv "-version" [] none none = ((true, none), ["ffmpeg -version"]) := by
  have h := ((C8_execute_exit_code_and_diagnostic okEnv "-version" [] none none rfl).1
    ⟨0, "", ""⟩ rfl).1 rfl
  rw [h]
  decide

/-- C9 counterexample: a two-output job whose second upload raises. The
upload loop populates `output_urls` incrementally, so the exception leaves
the first URL recorded while `process_task` marks the job Failed: a Failed
job exposing a non-empty output-locations mapping. -/
theorem C9_failed_job_with_partial_output_urls :
    (processTask upFailEnv taskTwoOutputs).task.status = TaskStatus.failed ∧
    (processTask upFailEnv taskTwoOutputs).task.output_urls
      = some [("out_1", "https://s3/v")] := by decide

/-- C9 amended: for a fresh job record, a Completed outcome has no error
detail and a populated output-locations mapping, and a Failed outcome
always carries an error detail; however the output-locations mapping of a
Failed job is not necessarily empty (see the counterexample). -/
theorem C9_terminal_field_population (env : Env) (t : Task) (herr0 : t.error_message = none) :
    ((processTask env t).task.status = TaskStatus.completed →
      (processTask env t).task.error_message = none ∧
      (processTask env t).task.output_urls ≠ none) ∧
    ((processTask env t).task.status = TaskStatus.failed →
      (processTask env t).task.error_message ≠ none) := by
  simp only [processTask]
  cases hps : env.publishEvent TaskEvent.task_started with
  | error e =>
    constructor
    · intro h
      simp at h
    · intro h
      simp at h
  | ok u =>
    cases hre : (dispatchHandler env { t with status := TaskStatus.running }
        ⟨[TaskStatus.running], 0, [], [TaskEvent.task_started]⟩).err with
    | none =>
      simp only [hre]
      by_cases hcm : t.command = mergeSentinel
      · have hd : dispatchHandler env { t with status := TaskStatus.running }
            ⟨[TaskStatus.running], 0, [], [TaskEvent.task_started]⟩
            = handleMerge env { t with status := TaskStatus.running }
              ⟨[TaskStatus.running], 0, [], [TaskEvent.task_started]⟩ := by
          unfold dispatchHandler
          exact if_pos hcm
        rw [hd] at hre ⊢
        rcases handleMerge_shape env { t with status := TaskStatus.running }
            ⟨[TaskStatus.running], 0, [], [TaskEvent.task_started]⟩ with he | ⟨h1, h2, h3⟩
        · exact absurd hre he
        · constructor
          · intro _
            refine ⟨?_, h3⟩
            rw [h2]
            exact herr0
          · intro hf
            rw [h1] at hf
            cases hf
      · have hd : dispatchHandler env { t with status := TaskStatus.running }
            ⟨[TaskStatus.running], 0, [], [TaskEvent.task_started]⟩
            = handleDefault env { t with status := TaskStatus.running }
              ⟨[TaskStatus.running], 0, [], [TaskEvent.task_started]⟩ := by
          unfold dispatchHandler
          exact if_neg hcm
        rw [hd] at hre ⊢
        rcases handleDefault_shape env { t with status := TaskStatus.running }
            ⟨[TaskStatus.running], 0, [], [TaskEvent.task_started]⟩ with he | ⟨h1, h2, h3⟩ | ⟨h1, h2⟩
        · exact absurd hre he
        · constructor
          · intro _
            refine ⟨?_, h3⟩
            rw [h2]
            exact herr0
          · intro hf
            rw [h1] at hf
            cases hf
        · constructor
          · intro hcp
            rw [h1] at hcp
            cases hcp
          · intro _
            exact h2
    | some e =>
      simp only [hre]
      cases hpf : env.publishEvent TaskEvent.task_failed with
      | error e2 =>
        constructor
        · intro h
          simp at h
        · intro _
          simp
      | ok u2 =>
        constructor
        · intro h
          simp at h
        · intro _
          simp

/-- C9 witness: the field-population theorem at the benign environment. -/
theorem C9_terminal_field_witness :
    ((processTask okEnv taskSimple).task.status = TaskStatus.completed →
      (processTask okEnv taskSimple).task.error_message = none ∧
      (processTask okEnv taskSimple).task.output_urls ≠ none) ∧
    ((processTask okEnv taskSimple).task.status = TaskStatus.failed →
      (processTask okEnv taskSimple).task.error_message ≠ none) :=
  C9_terminal_field_population okEnv taskSimple rfl

/-- C10: registering with an empty command template is rejected with HTTP
400 before any job record is created, stored or enqueued: the router state
is returned unchanged. -/
theorem C10_empty_command_rejected_before_any_mutation
    (st : RouterState) (req : TaskRegisterRequest) (new_id : String)
    (h : req.ffmpeg_command = "") :
    register_task st req new_id = (st, .error (400, "No ffmpeg_command provided")) := by
  simp [register_task, h]

/-- C10 witness: the rejection theorem at a concrete request with an empty
command and a non-empty output map, against an empty table and queue. -/
theorem C10_empty_command_witness :
    register_task ⟨[], []⟩ ⟨"", [("in_1", "http://x/a.mp4")], [("out_1", "o.mp4")]⟩ "id1"
      = (⟨[], []⟩, .error (400, "No ffmpeg_command provided")) :=
  C10_empty_command_rejected_before_any_mutation _ _ _ rfl

end FfmpegApi
